import Mathlib

/-!
Verification development for the real-time translation client.

The core under study is the Session Controller of the web client
(`src/unnamed/part_001`, React component `PrymeUI`), its RPC variant
(`src/unnamed/part_002`) and the Flutter client
(`src/flutter_client/main.dart`).  The stateful React `useState` setters
(`setSubtitle`, `setPartialSubtitle`, `setFinalSubtitle`, `setDebugEvents`,
`setIsTranslating`, `setAgentParticipant`) are embedded as explicit state
passing: every handler becomes a pure function from the prior state (plus
the event data) to the new state.  JavaScript strings become `String`,
byte payloads become `List UInt8`, and the platform collaborators the code
calls (`TextDecoder.decode`, `JSON.parse`, `String.prototype.includes`,
`String.prototype.trim`) are modelled below by executable Lean functions
with the same observable behaviour on the inputs the handlers feed them.
-/

/-! ### JavaScript string primitives -/

/-- Whitespace as stripped by `String.prototype.trim` (the characters that
occur in practice: ASCII whitespace, NBSP and the BOM). -/
def jsWhitespaceChar (c : Char) : Bool :=
  c = ' ' || c = '\t' || c = '\n' || c = '\r' ||
  c = (Char.ofNat 0x0B) || c = (Char.ofNat 0x0C) || c = (Char.ofNat 0xA0) ||
  c = (Char.ofNat 0xFEFF)

/-- Strip `jsWhitespaceChar`s from both ends of a character list. -/
def jsTrimChars (cs : List Char) : List Char :=
  ((cs.dropWhile jsWhitespaceChar).reverse.dropWhile jsWhitespaceChar).reverse

/-- Model of `String.prototype.trim`, on `String`. -/
def jsTrim (s : String) : String := String.mk (jsTrimChars s.data)

/-- Model of `s.includes(sub)`: `sub` occurs contiguously inside `s`. -/
def jsIncludes (s sub : String) : Bool := decide (sub.data <:+: s.data)

/-- UTF-8 encoding of one scalar value (model of `TextEncoder`, per char). -/
def charToBytes (c : Char) : List UInt8 :=
  let n := c.toNat
  if n < 0x80 then [UInt8.ofNat n]
  else if n < 0x800 then [UInt8.ofNat (0xC0 + n / 64), UInt8.ofNat (0x80 + n % 64)]
  else if n < 0x10000 then
    [UInt8.ofNat (0xE0 + n / 4096), UInt8.ofNat (0x80 + n / 64 % 64), UInt8.ofNat (0x80 + n % 64)]
  else
    [UInt8.ofNat (0xF0 + n / 262144), UInt8.ofNat (0x80 + n / 4096 % 64),
     UInt8.ofNat (0x80 + n / 64 % 64), UInt8.ofNat (0x80 + n % 64)]

/-- Model of `TextEncoder.encode`. -/
def strToBytes (s : String) : List UInt8 := s.data.flatMap charToBytes

/-- The replacement character U+FFFD emitted by a non-fatal `TextDecoder`. -/
def replacementChar : Char := Char.ofNat 0xFFFD

/-- A UTF-8 continuation byte (`10xxxxxx`). -/
def utf8Cont (b : UInt8) : Bool := 0x80 ≤ b.toNat && b.toNat ≤ 0xBF

/-- Worker for `utf8Decode`; the fuel is an upper bound on the number of
bytes still to be consumed, so `bytes.length` is always enough. -/
def utf8DecodeGo : Nat → List UInt8 → List Char
  | 0, _ => []
  | _, [] => []
  | fuel + 1, b :: rest =>
    let n := b.toNat
    if n < 0x80 then Char.ofNat n :: utf8DecodeGo fuel rest
    else if 0xC2 ≤ n ∧ n ≤ 0xDF then
      match rest with
      | b2 :: rest2 =>
        if utf8Cont b2 then
          Char.ofNat ((n - 0xC0) * 64 + (b2.toNat - 0x80)) :: utf8DecodeGo fuel rest2
        else replacementChar :: utf8DecodeGo fuel rest
      | [] => [replacementChar]
    else if 0xE0 ≤ n ∧ n ≤ 0xEF then
      match rest with
      | b2 :: b3 :: rest3 =>
        if utf8Cont b2 ∧ utf8Cont b3 then
          let cp := (n - 0xE0) * 4096 + (b2.toNat - 0x80) * 64 + (b3.toNat - 0x80)
          (if 0xD800 ≤ cp ∧ cp ≤ 0xDFFF then replacementChar else Char.ofNat cp) ::
            utf8DecodeGo fuel rest3
        else replacementChar :: utf8DecodeGo fuel rest
      | _ => [replacementChar]
    else if 0xF0 ≤ n ∧ n ≤ 0xF4 then
      match rest with
      | b2 :: b3 :: b4 :: rest4 =>
        if utf8Cont b2 ∧ utf8Cont b3 ∧ utf8Cont b4 then
          let cp := (n - 0xF0) * 262144 + (b2.toNat - 0x80) * 4096 +
            (b3.toNat - 0x80) * 64 + (b4.toNat - 0x80)
          (if cp ≤ 0x10FFFF then Char.ofNat cp else replacementChar) :: utf8DecodeGo fuel rest4
        else replacementChar :: utf8DecodeGo fuel rest
      | _ => [replacementChar]
    else replacementChar :: utf8DecodeGo fuel rest

/-- Model of `new TextDecoder().decode(payload)`: non-fatal UTF-8 decoding,
substituting U+FFFD for ill-formed input.  It is total: it never throws. -/
def utf8Decode (bytes : List UInt8) : String :=
  String.mk (utf8DecodeGo bytes.length bytes)

/-! ### JSON values and `JSON.parse` -/

/-- JSON values as produced by `JSON.parse`.  Numeric literals are kept as
their source lexemes: the handlers under study never do arithmetic on a
number field (numbers are only logged, stored in the trace buffer, or
tested for truthiness). -/
inductive Json where
  | null
  | bool (b : Bool)
  | num (lexeme : String)
  | str (s : String)
  | arr (elems : List Json)
  | obj (fields : List (String × Json))
deriving Repr

/-- JSON inter-token whitespace. -/
def jsonSkipWs : List Char → List Char
  | [] => []
  | c :: cs => if c = ' ' ∨ c = '\t' ∨ c = '\n' ∨ c = '\r' then jsonSkipWs cs else c :: cs

/-- Hexadecimal digit value, for `\uXXXX` escapes. -/
def hexDigitVal (c : Char) : Option Nat :=
  if '0' ≤ c ∧ c ≤ '9' then some (c.toNat - '0'.toNat)
  else if 'a' ≤ c ∧ c ≤ 'f' then some (c.toNat - 'a'.toNat + 10)
  else if 'A' ≤ c ∧ c ≤ 'F' then some (c.toNat - 'A'.toNat + 10)
  else none

/-- Parse the body of a JSON string literal, after its opening quote.
Returns the decoded string and the input after the closing quote. -/
def parseStringBody : Nat → List Char → List Char → Option (String × List Char)
  | 0, _, _ => none
  | _, [], _ => none
  | fuel + 1, c :: rest, acc =>
    if c = '"' then some (String.mk acc.reverse, rest)
    else if c = '\\' then
      match rest with
      | [] => none
      | e :: rest2 =>
        if e = '"' then parseStringBody fuel rest2 ('"' :: acc)
        else if e = '\\' then parseStringBody fuel rest2 ('\\' :: acc)
        else if e = '/' then parseStringBody fuel rest2 ('/' :: acc)
        else if e = 'b' then parseStringBody fuel rest2 (Char.ofNat 0x08 :: acc)
        else if e = 'f' then parseStringBody fuel rest2 (Char.ofNat 0x0C :: acc)
        else if e = 'n' then parseStringBody fuel rest2 ('\n' :: acc)
        else if e = 'r' then parseStringBody fuel rest2 ('\r' :: acc)
        else if e = 't' then parseStringBody fuel rest2 ('\t' :: acc)
        else if e = 'u' then
          match rest2 with
          | h1 :: h2 :: h3 :: h4 :: rest3 =>
            match hexDigitVal h1, hexDigitVal h2, hexDigitVal h3, hexDigitVal h4 with
            | some a, some b, some c2, some d =>
              parseStringBody fuel rest3 (Char.ofNat (a * 4096 + b * 256 + c2 * 16 + d) :: acc)
            | _, _, _, _ => none
          | _ => none
        else none
    else if c.toNat < 0x20 then none
    else parseStringBody fuel rest (c :: acc)

/-- Parse a JSON number lexeme (sign, integer part, optional fraction and
exponent).  Returns the lexeme and the remaining input. -/
def parseNumberLexeme (cs : List Char) : Option (String × List Char) :=
  let (sign, cs1) : List Char × List Char :=
    match cs with
    | '-' :: r => (['-'], r)
    | _ => ([], cs)
  let ds := cs1.takeWhile Char.isDigit
  let cs2 := cs1.dropWhile Char.isDigit
  if ds.isEmpty then none
  else
    let (frac, cs3) : List Char × List Char :=
      match cs2 with
      | '.' :: r =>
        let fd := r.takeWhile Char.isDigit
        if fd.isEmpty then ([], cs2) else ('.' :: fd, r.dropWhile Char.isDigit)
      | _ => ([], cs2)
    let (ex, cs4) : List Char × List Char :=
      match cs3 with
      | e :: r =>
        if e = 'e' ∨ e = 'E' then
          let (es, r2) : List Char × List Char :=
            match r with
            | s :: r3 => if s = '+' ∨ s = '-' then ([e, s], r3) else ([e], r)
            | [] => ([e], r)
          let ed := r2.takeWhile Char.isDigit
          if ed.isEmpty then ([], cs3) else (es ++ ed, r2.dropWhile Char.isDigit)
        else ([], cs3)
      | [] => ([], cs3)
    some (String.mk (sign ++ ds ++ frac ++ ex), cs4)

/-- Match an exact keyword tail (`rue`, `alse`, `ull`). -/
def stripKeyword : List Char → List Char → Option (List Char)
  | [], cs => some cs
  | _ :: _, [] => none
  | k :: ks, c :: cs => if c = k then stripKeyword ks cs else none

/-- Parsing mode for the single fuelled JSON parser: a value, the members
of an object (accumulated so far), or the elements of an array. -/
inductive ParseMode where
  | value
  | members (acc : List (String × Json))
  | elements (acc : List Json)

/-- Recursive-descent JSON parser.  The fuel is an upper bound on the
recursion depth; every recursive call consumes at least one input
character first, so `input.length + 2` is always enough fuel. -/
def parseCore : Nat → ParseMode → List Char → Option (Json × List Char)
  | 0, _, _ => none
  | fuel + 1, ParseMode.value, cs =>
    match jsonSkipWs cs with
    | [] => none
    | c :: rest =>
      if c = '{' then
        match jsonSkipWs rest with
        | '}' :: rest2 => some (Json.obj [], rest2)
        | cs2 => parseCore fuel (ParseMode.members []) cs2
      else if c = '[' then
        match jsonSkipWs rest with
        | ']' :: rest2 => some (Json.arr [], rest2)
        | cs2 => parseCore fuel (ParseMode.elements []) cs2
      else if c = '"' then
        match parseStringBody (rest.length + 1) rest [] with
        | some (s, rest2) => some (Json.str s, rest2)
        | none => none
      else if c = 't' then
        match stripKeyword ['r', 'u', 'e'] rest with
        | some rest2 => some (Json.bool true, rest2)
        | none => none
      else if c = 'f' then
        match stripKeyword ['a', 'l', 's', 'e'] rest with
        | some rest2 => some (Json.bool false, rest2)
        | none => none
      else if c = 'n' then
        match stripKeyword ['u', 'l', 'l'] rest with
        | some rest2 => some (Json.null, rest2)
        | none => none
      else if c = '-' ∨ c.isDigit then
        match parseNumberLexeme (c :: rest) with
        | some (lex, rest2) => some (Json.num lex, rest2)
        | none => none
      else none
  | fuel + 1, ParseMode.members acc, cs =>
    match jsonSkipWs cs with
    | '"' :: rest =>
      match parseStringBody (rest.length + 1) rest [] with
      | some (key, rest2) =>
        match jsonSkipWs rest2 with
        | ':' :: rest3 =>
          match parseCore fuel ParseMode.value rest3 with
          | some (v, rest4) =>
            match jsonSkipWs rest4 with
            | ',' :: rest5 => parseCore fuel (ParseMode.members (acc ++ [(key, v)])) rest5
            | '}' :: rest5 => some (Json.obj (acc ++ [(key, v)]), rest5)
            | _ => none
          | none => none
        | _ => none
      | none => none
    | _ => none
  | fuel + 1, ParseMode.elements acc, cs =>
    match parseCore fuel ParseMode.value cs with
    | some (v, rest) =>
      match jsonSkipWs rest with
      | ',' :: rest2 => parseCore fuel (ParseMode.elements (acc ++ [v])) rest2
      | ']' :: rest2 => some (Json.arr (acc ++ [v]), rest2)
      | _ => none
    | none => none

/-- Model of `JSON.parse` as a total function into `Option`: `none` where
`JSON.parse` throws a `SyntaxError` (this is the exception the handler
catches), `some` with the parsed value otherwise. -/
def jsonParse (s : String) : Option Json :=
  match parseCore (s.data.length + 2) ParseMode.value s.data with
  | some (j, rest) => if (jsonSkipWs rest).isEmpty then some j else none
  | none => none

/-! ### Field access and JavaScript truthiness -/

/-- Property access `j[key]` on a parsed value: `none` models `undefined`
(absent key, or access on a non-object).  Later duplicate keys win, as in
`JSON.parse`. -/
def getField (j : Json) (key : String) : Option Json :=
  match j with
  | Json.obj fields => fields.foldl (fun acc p => if p.1 = key then some p.2 else acc) none
  | _ => none

/-- Is a JSON number lexeme the number zero (`0`, `-0`, `0.00`, `0e9`, ...)?
Used only for JavaScript truthiness of numbers. -/
def numLexemeIsZero (lexeme : String) : Bool :=
  (lexeme.data.takeWhile (fun c => c ≠ 'e' ∧ c ≠ 'E')).all
    (fun c => c = '0' ∨ c = '.' ∨ c = '-')

/-- JavaScript truthiness of a parsed JSON value. -/
def jsTruthy : Json → Bool
  | Json.null => false
  | Json.bool b => b
  | Json.num lexeme => !(numLexemeIsZero lexeme)
  | Json.str s => s ≠ ""
  | Json.arr _ => true
  | Json.obj _ => true

/-- Model of `data[key] || ''` as the dispatch arms read string fields.
Falsy values (`undefined`, `null`, `false`, `0`, `""`) give `""` exactly
as in JavaScript.  A truthy non-string value instead makes the source arm
throw a `TypeError` at the `.substring()`/`.trim()` call it later applies
to the read value; those throws are modelled explicitly
(`eventInfoThrows`, `truthyNonStringField`, `legacyTextThrows` below) and
are routed to the inner catch by `handleDataReceived`, so inside the
pipeline `getStrD` is consulted only where the field is a string or falsy
— where it coincides with the source's read.  `classify`, the standalone
codec view used by `decodeData`, uses it for the value an arm reads
whenever that arm does not throw. -/
def getStrD (j : Json) (key : String) : String :=
  match getField j key with
  | some (Json.str s) => s
  | _ => ""

/-- Model of `data.text || data.content || ''` (legacy fallback read). -/
def getStrD2 (j : Json) (k1 k2 : String) : String :=
  if getStrD j k1 ≠ "" then getStrD j k1 else getStrD j k2

/-- Model of `Boolean(data[key])` as used by `data.is_final || false`. -/
def truthyField (j : Json) (key : String) : Bool :=
  match getField j key with
  | some v => jsTruthy v
  | none => false

/-- The field's value when it is a string, `none` otherwise. -/
def strField (j : Json) (key : String) : Option String :=
  match getField j key with
  | some (Json.str s) => some s
  | _ => none

/-! ### Caption state and the Caption Assembler

The three `useState` strings of `PrymeUI` (src/unnamed/part_001):
`subtitle` is the spec's `displayText`, `partialSubtitle` is
`partialText`, `finalSubtitle` is `finalText`. -/

structure CaptionState where
  subtitle : String
  partialSubtitle : String
  finalSubtitle : String
deriving Repr, DecidableEq

/-- The pending indicator appended in `setSubtitle(text + ' ⏳')`. -/
def pendingIndicator : String := " ⏳"

/-- All three caption strings start empty (`useState('')`). -/
def initialCaptionState : CaptionState := ⟨"", "", ""⟩

/-- The characters of the filter regex `/[。！？，、；：]/` in
`handleTranslationStream`. -/
def cjkPunctChars : List Char := ['。', '！', '？', '，', '、', '；', '：']

/-- Model of `/[。！？，、；：]/.test(s)`: some character of `s` is in the
punctuation set. -/
def hasCjkPunct (s : String) : Bool :=
  s.data.any (fun c => decide (c ∈ cjkPunctChars))

/-- `handleTranslationStream` (src/unnamed/part_001 lines 546-583): drop
empty or whitespace-only text, drop text that trims to a single character
unless that character passes the punctuation regex, otherwise update the
final or the partial caption according to `is_final`. -/
def handleTranslationStream (st : CaptionState) (text chunk : String) (isFinal : Bool) :
    CaptionState :=
  if text = "" ∨ jsTrim text = "" then st
  else if (jsTrim text).length = 1 ∧ hasCjkPunct (jsTrim text) = false then st
  else if isFinal then
    { subtitle := text, partialSubtitle := "", finalSubtitle := text }
  else
    { st with subtitle := text ++ pendingIndicator, partialSubtitle := text }

/-- `handleTranslation` (src/unnamed/part_001 lines 586-600): the legacy
event is always treated as final. -/
def handleTranslation (st : CaptionState) (text : String) : CaptionState :=
  if text ≠ "" ∧ jsTrim text ≠ "" then
    { subtitle := text, partialSubtitle := "", finalSubtitle := text }
  else st

/-- `handleTranscript` (src/unnamed/part_001 lines 603-621): transcripts
are only logged; no caption field is mutated. -/
def handleTranscript (st : CaptionState) (text : String)
    (isFinal confidence : Option Json) : CaptionState :=
  st

/-- `handleTranslationStatus` (src/unnamed/part_001 lines 624-641):
synthesize a status line, and clear both caption tiers when the status is
`"stopped"`. -/
def handleTranslationStatus (st : CaptionState) (status language : String) : CaptionState :=
  let statusMessage :=
    "翻译状态: " ++ status ++ (if language ≠ "" then " (" ++ language ++ ")" else "")
  if status = "stopped" then
    { subtitle := statusMessage, partialSubtitle := "", finalSubtitle := "" }
  else
    { st with subtitle := statusMessage }

/-! ### Inbound events and the Message Codec -/

/-- The classified inbound events.  `unknown` keeps the raw `type` value,
the (string) `text` field if any, and the raw decoded message — the
source's unknown-type arm falls back to `setSubtitle(message)`.
`plainText` carries the raw message of a payload that was not valid
JSON. -/
inductive InboundEvent where
  | translationStream (text chunk : String) (isFinal : Bool) (timestamp : Option Json)
  | translation (text : String)
  | transcript (text : String) (isFinal confidence : Option Json)
  | translationStatus (status language : String)
  | unknown (rawType : Option Json) (textField : Option String) (raw : String)
  | plainText (raw : String)

/-- Does the payload's `type` field hold one of the four recognized
discriminator strings? -/
def recognizedType (j : Json) : Bool :=
  match getField j "type" with
  | some (Json.str t) =>
    t = "translation_stream" || t = "translation" || t = "transcript" ||
      t = "translation_status"
  | _ => false

/-- The `if/else if` dispatch on `jsonData.type` in `handleDataReceived`
(src/unnamed/part_001 lines 507-532), with the field reads each branch
performs (`data.text || ''`, `data.text || data.content || ''`,
`data.is_final || false`, ...). -/
def classify (j : Json) (raw : String) : InboundEvent :=
  match getField j "type" with
  | some (Json.str t) =>
    if t = "translation_stream" then
      InboundEvent.translationStream (getStrD j "text") (getStrD j "chunk")
        (truthyField j "is_final") (getField j "timestamp")
    else if t = "translation" then
      InboundEvent.translation (getStrD2 j "text" "content")
    else if t = "transcript" then
      InboundEvent.transcript (getStrD2 j "text" "content") (getField j "is_final")
        (getField j "confidence")
    else if t = "translation_status" then
      InboundEvent.translationStatus (getStrD j "status") (getStrD j "language")
    else
      InboundEvent.unknown (some (Json.str t)) (strField j "text") raw
  | other => InboundEvent.unknown other (strField j "text") raw

/-- The Caption Assembler as one pure reducer: dispatch a classified event
to the handler the source calls for it.  The `unknown` arm is the
source's `else` branch (`jsonData.text && jsonData.text.trim()` chooses
between the text field and the raw message); the `plainText` arm is the
`catch (parseError)` branch (`if (message && message.trim())`). -/
def applyEvent (st : CaptionState) : InboundEvent → CaptionState
  | InboundEvent.translationStream text chunk isFinal _ =>
    handleTranslationStream st text chunk isFinal
  | InboundEvent.translation text => handleTranslation st text
  | InboundEvent.transcript text isFinal confidence =>
    handleTranscript st text isFinal confidence
  | InboundEvent.translationStatus status language =>
    handleTranslationStatus st status language
  | InboundEvent.unknown _ textField raw =>
    match textField with
    | some t =>
      if t ≠ "" ∧ jsTrim t ≠ "" then { st with subtitle := t }
      else { st with subtitle := raw }
    | none => { st with subtitle := raw }
  | InboundEvent.plainText raw =>
    if raw ≠ "" ∧ jsTrim raw ≠ "" then { st with subtitle := raw } else st

/-- The Message Codec: bytes → decoded text → one classified event.
`JSON.parse` failure is caught and yields the plain-text event; nothing
escapes.  This is a total Lean function, which is the embedding of
"`decode` is pure, never throws, and has no side effects". -/
def decodeData (payload : List UInt8) : InboundEvent :=
  let message := utf8Decode payload
  match jsonParse message with
  | some j => classify j message
  | none => InboundEvent.plainText message

/-! ### Trace buffer and the data-received pipeline -/

/-- One entry of `debugEvents`: the `eventInfo` record built in
`handleDataReceived` (src/unnamed/part_001 lines 487-498) — the fields it
copies out of the parsed payload, plus the arrival wall clock
(`received_at`). -/
structure TraceEntry where
  ty : Option Json
  text : Option Json
  chunk : Option Json
  isFinal : Option Json
  sourceLanguage : Option Json
  targetLanguage : Option Json
  confidence : Option Json
  timestamp : Option Json
  receivedAt : Int

/-- `jsonData.text?.substring(0, 100)` with the `'...'` marker. -/
def jsTruncate (s : String) : String :=
  if s.length > 100 then String.mk (s.data.take 100) ++ "..." else s

/-- Truncate the `text` field for the trace entry when it is a string. -/
def truncTextField : Option Json → Option Json
  | some (Json.str s) => some (Json.str (jsTruncate s))
  | v => v

/-- Build the `eventInfo` trace entry from the parsed payload. -/
def eventInfoOf (j : Json) (receivedAt : Int) : TraceEntry :=
  { ty := getField j "type"
    text := truncTextField (getField j "text")
    chunk := getField j "chunk"
    isFinal := getField j "is_final"
    sourceLanguage := getField j "source_language"
    targetLanguage := getField j "target_language"
    confidence := getField j "confidence"
    timestamp := getField j "timestamp"
    receivedAt := receivedAt }

/-- `setDebugEvents(prev => [eventInfo, ...prev].slice(0, 20))`
(src/unnamed/part_001 lines 502-505): prepend the new entry and keep the
first 20 — newest first, the oldest entry beyond 20 is evicted. -/
def pushDebugEvent {α : Type} (e : α) (l : List α) : List α :=
  (e :: l).take 20

/-- The pipeline stages of `handleDataReceived`, for stating in which
order a payload passes through them. -/
inductive Stage where
  | decode
  | traceInsert
  | assemblerApply
deriving DecidableEq, Repr

/-- The state `handleDataReceived` can mutate: the three caption strings
and the `debugEvents` trace buffer. -/
structure RecvState where
  subtitle : String
  partialSubtitle : String
  finalSubtitle : String
  debugEvents : List TraceEntry

/-- Result of one `handleDataReceived` call: the new state, the pipeline
stages that ran in source order, and the console log lines (abridged to
what they depend on; the sender identity appears only here). -/
structure RecvResult where
  state : RecvState
  stages : List Stage
  logs : List String

/-- All state fields start empty. -/
def initialRecvState : RecvState := ⟨"", "", "", []⟩

/-- Is a JSON value a string? -/
def isJsonStr : Json → Bool
  | Json.str _ => true
  | _ => false

/-- Does reading `data[key] || ...` and then calling a string method on
the result throw?  It does exactly when the field is present and truthy
but not a string (`?.`/`||` only guard `null`, `undefined` and falsy
values; `(123).substring` is undefined and calling it throws). -/
def truthyNonStringField (j : Json) (key : String) : Bool :=
  match getField j key with
  | some v => jsTruthy v && !(isJsonStr v)
  | none => false

/-- Does building `eventInfo` (src/unnamed/part_001 lines 487-498)
throw?  Line 488 `jsonData.type` throws when the parsed payload is
`null`; line 489 `jsonData.text?.substring(0, 100)` throws when the
`text` field is present but neither `null` nor a string (`?.` guards
only `null`/`undefined`, so `0` and `false` also throw). -/
def eventInfoThrows (j : Json) : Bool :=
  match j with
  | Json.null => true
  | _ =>
    match getField j "text" with
    | some Json.null => false
    | some (Json.str _) => false
    | some _ => true
    | none => false

/-- Does the legacy read `data.text || data.content || ''` followed by
`text.substring(0, 100)` (handleTranslation line 590, handleTranscript
line 609) throw?  The selected value is `text` when that is truthy, else
`content` when that is truthy, else `''`; the call throws exactly when
the selected value is not a string. -/
def legacyTextThrows (j : Json) : Bool :=
  match getField j "text" with
  | some v => if jsTruthy v then !(isJsonStr v) else truthyNonStringField j "content"
  | none => truthyNonStringField j "content"

/-- JavaScript template coercion `${v}` of a leaf value inside an array
(`Array.prototype.join` renders `null` as the empty string).  A nested
array would recursively flatten in JavaScript; it is rendered here as
the empty string — no payload of this program nests arrays inside a
status field. -/
def jsTemplateLeaf : Json → String
  | Json.str s => s
  | Json.num lexeme => lexeme
  | Json.bool b => cond b "true" "false"
  | Json.null => ""
  | Json.obj _ => "[object Object]"
  | Json.arr _ => ""

/-- JavaScript template coercion `${v}` as applied to the status and
language values.  Number values are rendered by their source lexeme
(JavaScript prints the parsed double, which agrees on canonical
lexemes). -/
def jsTemplateStr : Json → String
  | Json.str s => s
  | Json.num lexeme => lexeme
  | Json.bool b => cond b "true" "false"
  | Json.null => "null"
  | Json.obj _ => "[object Object]"
  | Json.arr elems => String.intercalate "," (elems.map jsTemplateLeaf)

/-- `data[key] || ''` for the status-line fields: the template-coerced
value when truthy, the empty string otherwise.  Unlike the `text` reads,
no string method is called on these values, so they never throw. -/
def statusFieldStr (j : Json) (key : String) : String :=
  match getField j key with
  | some v => if jsTruthy v then jsTemplateStr v else ""
  | none => ""

/-- The `translation_status` arm as called on a raw payload: the local
`status` keeps the raw value, the template coerces it for display, and
the strict comparison `status === 'stopped'` can only succeed for the
string `"stopped"` — a truthy non-string status is displayed (coerced)
but never clears the tiers. -/
def translationStatusArm (st : CaptionState) (j : Json) : CaptionState :=
  let language := statusFieldStr j "language"
  match getField j "status" with
  | some (Json.str s) => handleTranslationStatus st s language
  | some v =>
    if jsTruthy v then
      { st with subtitle := "翻译状态: " ++ jsTemplateStr v ++
          (if language ≠ "" then " (" ++ language ++ ")" else "") }
    else handleTranslationStatus st "" language
  | none => handleTranslationStatus st "" language

/-- The dispatch on `jsonData.type` (src/unnamed/part_001 lines 507-532)
as executed inside the inner `try`: each arm either completes with the
new caption state or throws (`Except.error`) at the string-method call
its handler performs before any caption mutation — `handleTranslation`
and `handleTranscript` log `text.substring(0, 100)` before their first
setter, so a throwing arm leaves the caption untouched. -/
def dispatchE (st : CaptionState) (j : Json) (raw : String) : Except Unit CaptionState :=
  match getField j "type" with
  | some (Json.str t) =>
    if t = "translation_stream" then
      if truthyNonStringField j "text" then Except.error ()
      else Except.ok (handleTranslationStream st (getStrD j "text") (getStrD j "chunk")
        (truthyField j "is_final"))
    else if t = "translation" then
      if legacyTextThrows j then Except.error ()
      else Except.ok (handleTranslation st (getStrD2 j "text" "content"))
    else if t = "transcript" then
      if legacyTextThrows j then Except.error ()
      else Except.ok (handleTranscript st (getStrD2 j "text" "content")
        (getField j "is_final") (getField j "confidence"))
    else if t = "translation_status" then
      Except.ok (translationStatusArm st j)
    else
      if truthyNonStringField j "text" then Except.error ()
      else Except.ok (applyEvent st (InboundEvent.unknown (some (Json.str t))
        (strField j "text") raw))
  | other =>
    if truthyNonStringField j "text" then Except.error ()
    else Except.ok (applyEvent st (InboundEvent.unknown other (strField j "text") raw))

/-- `handleDataReceived` (src/unnamed/part_001 lines 464-543).  The
decoded text is parsed inside an inner `try` whose `catch (parseError)`
(line 533) also catches the `TypeError`s of the structured path: if
`JSON.parse` fails OR building `eventInfo` throws (payload `null`, or a
non-string non-null `text` field), nothing is inserted and the
plain-text rule runs on the raw message.  Otherwise the source first
records the trace entry (`setDebugEvents`, line 502) and then
dispatches (lines 507-532); if the dispatched handler throws before its
caption setters, the catch applies the plain-text rule — after the
insert.  The sender identity (`e.participant?.identity`) is only
logged. -/
def handleDataReceived (st : RecvState) (senderIdentity : String) (payload : List UInt8)
    (now : Int) : RecvResult :=
  let message := utf8Decode payload
  let caption : CaptionState := ⟨st.subtitle, st.partialSubtitle, st.finalSubtitle⟩
  let plainCaption := applyEvent caption (InboundEvent.plainText message)
  match jsonParse message with
  | some j =>
    if eventInfoThrows j then
      { state :=
          { subtitle := plainCaption.subtitle
            partialSubtitle := plainCaption.partialSubtitle
            finalSubtitle := plainCaption.finalSubtitle
            debugEvents := st.debugEvents }
        stages := [Stage.decode, Stage.assemblerApply]
        logs := ["参与者身份: " ++ senderIdentity, "纯文本消息: " ++ message] }
    else
      let dbg := pushDebugEvent (eventInfoOf j now) st.debugEvents
      match dispatchE caption j message with
      | Except.ok caption2 =>
        { state :=
            { subtitle := caption2.subtitle
              partialSubtitle := caption2.partialSubtitle
              finalSubtitle := caption2.finalSubtitle
              debugEvents := dbg }
          stages := [Stage.decode, Stage.traceInsert, Stage.assemblerApply]
          logs := ["参与者身份: " ++ senderIdentity, "收到数据消息: " ++ message] }
      | Except.error _ =>
        { state :=
            { subtitle := plainCaption.subtitle
              partialSubtitle := plainCaption.partialSubtitle
              finalSubtitle := plainCaption.finalSubtitle
              debugEvents := dbg }
          stages := [Stage.decode, Stage.traceInsert, Stage.assemblerApply]
          logs := ["参与者身份: " ++ senderIdentity, "纯文本消息: " ++ message] }
  | none =>
    { state :=
        { subtitle := plainCaption.subtitle
          partialSubtitle := plainCaption.partialSubtitle
          finalSubtitle := plainCaption.finalSubtitle
          debugEvents := st.debugEvents }
      stages := [Stage.decode, Stage.assemblerApply]
      logs := ["参与者身份: " ++ senderIdentity, "纯文本消息: " ++ message] }

/-! ### Start/stop control: `toggleTranslation` -/

/-- The state `toggleTranslation` in src/unnamed/part_001 reads and
writes: connection flag, the `roomRef` (here: whether it is non-null and
the room's name), the microphone-track check, the translating flag, the
discovered agent and the subtitle the handler sets. -/
structure ToggleState where
  isConnected : Bool
  hasRoom : Bool
  micEnabled : Bool
  isTranslating : Bool
  agentParticipant : Option String
  roomName : String
  subtitle : String
deriving Repr, DecidableEq

/-- The control message serialized and broadcast by the web client
(`{ type: 'translation_control', action, timestamp, room }`). -/
structure ControlMessage where
  ty : String
  action : String
  timestamp : Int
  room : String
deriving Repr, DecidableEq

/-- Result of one `toggleTranslation` call: new state, the control
messages handed to `publishData`, and the alert shown on a precondition
or publish failure. -/
structure ToggleResult where
  state : ToggleState
  published : List ControlMessage
  alert : Option String
deriving Repr, DecidableEq

/-- `toggleTranslation` (src/unnamed/part_001 lines 174-276), the
broadcast variant.  Preconditions checked by the source: the room is
connected and present, and the local microphone track exists and is not
muted — the discovered agent is NOT consulted.  `publishOk` stands for
the success of the awaited `publishData` call; on failure the `catch`
resets `isTranslating` and alerts.  (The delayed self-test message sent
via `setTimeout` two seconds later is outside this synchronous model.) -/
def toggleTranslation (st : ToggleState) (now : Int) (publishOk : Bool) : ToggleResult :=
  if ¬ st.isConnected ∨ ¬ st.hasRoom then
    { state := st, published := [], alert := some "请先连接到房间" }
  else if ¬ st.micEnabled then
    { state := st, published := [], alert := some "请确保麦克风已启用且未被静音" }
  else if ¬ st.isTranslating then
    let msg : ControlMessage := ⟨"translation_control", "start", now, st.roomName⟩
    if publishOk then
      { state := { st with isTranslating := true, subtitle := "翻译模式已启动，请开始说话..." }
        published := [msg], alert := none }
    else
      { state := { st with isTranslating := false, subtitle := "翻译控制失败，请重试" }
        published := [msg], alert := some "控制翻译失败。请检查网络连接并重试。" }
  else
    let msg : ControlMessage := ⟨"translation_control", "stop", now, st.roomName⟩
    if publishOk then
      { state := { st with isTranslating := false, subtitle := "翻译模式已停止" }
        published := [msg], alert := none }
    else
      { state := { st with isTranslating := false, subtitle := "翻译控制失败，请重试" }
        published := [msg], alert := some "控制翻译失败。请检查网络连接并重试。" }

/-- The state the RPC variant's `toggleTranslation` uses
(src/unnamed/part_002 lines 148-178). -/
structure RpcToggleState where
  isConnected : Bool
  hasRoom : Bool
  isTranslating : Bool
  agentParticipant : Option String
deriving Repr, DecidableEq

/-- An RPC request `room.localParticipant.rpc(destination, method)`. -/
structure RpcCall where
  destinationIdentity : String
  method : String
deriving Repr, DecidableEq

/-- Result of the RPC variant: new state, RPC calls attempted, and
whether the precondition/catch error path was taken. -/
structure RpcToggleResult where
  state : RpcToggleState
  calls : List RpcCall
  errorReported : Bool
deriving Repr, DecidableEq

/-- `toggleTranslation`, RPC variant (src/unnamed/part_002 lines
148-178): requires connection, a room AND a discovered agent, then
addresses `start_translation`/`stop_translation` to the agent's
identity.  `rpcOk` is the success of the awaited `rpc` call; on failure
the `catch` leaves `isTranslating` unchanged. -/
def toggleTranslationRpc (st : RpcToggleState) (rpcOk : Bool) : RpcToggleResult :=
  if ¬ st.isConnected ∨ ¬ st.hasRoom ∨ st.agentParticipant = none then
    { state := st, calls := [], errorReported := true }
  else
    match st.agentParticipant with
    | some agentIdentity =>
      if ¬ st.isTranslating then
        if rpcOk then
          { state := { st with isTranslating := true }
            calls := [⟨agentIdentity, "start_translation"⟩], errorReported := false }
        else
          { state := st, calls := [⟨agentIdentity, "start_translation"⟩], errorReported := true }
      else
        if rpcOk then
          { state := { st with isTranslating := false }
            calls := [⟨agentIdentity, "stop_translation"⟩], errorReported := false }
        else
          { state := st, calls := [⟨agentIdentity, "stop_translation"⟩], errorReported := true }
    | none => { state := st, calls := [], errorReported := true }

/-! ### Agent Directory -/

/-- The web clients' agent heuristic
(`participant.identity.includes('translator') ||
participant.identity.includes('agent')`,
src/unnamed/part_001 lines 371-409). -/
def isTranslationAgentIdentity (identity : String) : Bool :=
  jsIncludes identity "translator" || jsIncludes identity "agent"

/-- `handleParticipantConnected` restricted to the agent-directory state
it owns: on a join, a matching identity becomes the current agent
(`setAgentParticipant`), any other join leaves it unchanged.  Most
recent match wins. -/
def handleParticipantConnected (agentParticipant : Option String) (identity : String) :
    Option String :=
  if isTranslationAgentIdentity identity then some identity else agentParticipant

/-- The Flutter client's `_handleParticipant`
(src/flutter_client/main.dart lines 306-330): it tests only
`participant.identity.contains('translator')` — no `'agent'` test. -/
def handleParticipantDart (agent : Option String) (identity : String) : Option String :=
  if jsIncludes identity "translator" then some identity else agent

/-! ### Helper lemmas -/

/-- `s.includes(sub)` agrees with the contiguous-substring relation. -/
lemma jsIncludes_iff_contig (s sub : String) : jsIncludes s sub = true ↔ sub.data <:+: s.data := by
  simp [jsIncludes]

/-- The stream filter's regex test is false exactly when no character of
the string is in the punctuation set. -/
lemma hasCjkPunct_eq_false_iff (s : String) :
    hasCjkPunct s = false ↔ ∀ c ∈ s.data, c ∉ cjkPunctChars := by
  rw [← Bool.not_eq_true, hasCjkPunct, List.any_eq_true]
  simp

/-- Taking `n` already-taken elements on the right of an append changes
nothing. -/
lemma take_append_take {α : Type} (a b : List α) (n : Nat) :
    (a ++ b.take n).take n = (a ++ b).take n := by
  rw [List.take_append_eq_append_take, List.take_append_eq_append_take, List.take_take,
    min_eq_left (Nat.sub_le _ _)]

/-- Closed form of repeated `pushDebugEvent` from a small enough start:
the buffer is the reversed insertion order, truncated to 20. -/
lemma foldl_pushDebugEvent {α : Type} (es : List α) :
    ∀ l : List α, l.length ≤ 20 →
      es.foldl (fun acc e => pushDebugEvent e acc) l = (es.reverse ++ l).take 20 := by
  induction es with
  | nil =>
    intro l hl
    simp [List.take_of_length_le hl]
  | cons e es ih =>
    intro l hl
    simp only [List.foldl_cons, List.reverse_cons]
    rw [ih (pushDebugEvent e l) (by simp [pushDebugEvent])]
    rw [pushDebugEvent, take_append_take]
    congr 1
    simp

/-! ### The caption display invariant (spec §3) -/

/-- The spec's `CaptionState` invariant: the display string is the partial
text plus the pending indicator when a partial is live, otherwise the
final text (which may be empty). -/
def captionInvariant (st : CaptionState) : Prop :=
  st.subtitle =
    if st.partialSubtitle ≠ "" then st.partialSubtitle ++ pendingIndicator
    else st.finalSubtitle

instance (st : CaptionState) : Decidable (captionInvariant st) := by
  unfold captionInvariant; infer_instance

/-- The events that drive the two-tier caption machine: streaming
translations, legacy translations and transcripts.  Status, unknown and
plain-text events write the display string directly. -/
def streamFamilyEvent : InboundEvent → Bool
  | InboundEvent.translationStream _ _ _ _ => true
  | InboundEvent.translation _ => true
  | InboundEvent.transcript _ _ _ => true
  | _ => false

/-- One stream-family event preserves the display invariant. -/
lemma applyEvent_preserves_invariant (st : CaptionState) (e : InboundEvent)
    (he : streamFamilyEvent e = true) (hst : captionInvariant st) :
    captionInvariant (applyEvent st e) := by
  cases e with
  | translationStream text chunk isFinal ts =>
    simp only [applyEvent, handleTranslationStream]
    by_cases h1 : text = "" ∨ jsTrim text = ""
    · rw [if_pos h1]; exact hst
    · rw [if_neg h1]
      by_cases h2 : (jsTrim text).length = 1 ∧ hasCjkPunct (jsTrim text) = false
      · rw [if_pos h2]; exact hst
      · rw [if_neg h2]
        push_neg at h1
        cases isFinal with
        | true => simp [captionInvariant]
        | false => simp [captionInvariant, h1.1]
  | translation text =>
    simp only [applyEvent, handleTranslation]
    by_cases h : text ≠ "" ∧ jsTrim text ≠ ""
    · rw [if_pos h]; simp [captionInvariant]
    · rw [if_neg h]; exact hst
  | transcript text isFinal confidence =>
    simpa only [applyEvent, handleTranscript] using hst
  | translationStatus status language => simp [streamFamilyEvent] at he
  | unknown rawType textField raw => simp [streamFamilyEvent] at he
  | plainText raw => simp [streamFamilyEvent] at he

/-- Folding stream-family events preserves the display invariant. -/
lemma foldl_applyEvent_invariant (events : List InboundEvent) :
    ∀ st : CaptionState, (∀ e ∈ events, streamFamilyEvent e = true) → captionInvariant st →
      captionInvariant (events.foldl applyEvent st) := by
  induction events with
  | nil => intro st _ hst; simpa using hst
  | cons e es ih =>
    intro st h hst
    simp only [List.foldl_cons]
    exact ih _ (fun x hx => h x (List.mem_cons_of_mem _ hx))
      (applyEvent_preserves_invariant st e (h e (List.mem_cons_self _ _)) hst)

/-- C2 (amended): after any sequence of stream-family events
(`translation_stream`, legacy `translation`, `transcript`) applied from
the initial state, the display string equals the partial text plus the
pending indicator when the partial text is non-empty, and the final text
(possibly empty) otherwise — so it never reflects both tiers at once.
Status, unknown-type and plain-text events write the display string
directly and are excluded. -/
theorem caption_display_invariant_stream_events (events : List InboundEvent)
    (h : ∀ e ∈ events, streamFamilyEvent e = true) :
    captionInvariant (events.foldl applyEvent initialCaptionState) :=
  foldl_applyEvent_invariant events initialCaptionState h
    (by simp [captionInvariant, initialCaptionState])

/-- C2 witness: the spec's own scenario (a partial then a final Korean
caption) satisfies the invariant. -/
theorem caption_display_invariant_stream_events_witness :
    (∀ e ∈ [InboundEvent.translationStream "안녕" "" false none,
            InboundEvent.translationStream "안녕하세요" "" true none],
        streamFamilyEvent e = true) ∧
    captionInvariant
      ([InboundEvent.translationStream "안녕" "" false none,
        InboundEvent.translationStream "안녕하세요" "" true none].foldl applyEvent
          initialCaptionState) :=
  ⟨by decide, caption_display_invariant_stream_events _ (by decide)⟩

/-- C2 counterexample: the claim quantifies over ALL inbound events, but a
single `translation_status` event already breaks the invariant — it sets
the display string to a synthesized status line while both caption tiers
are empty. -/
theorem caption_display_invariant_counterexample :
    ¬ captionInvariant
        ([InboundEvent.translationStatus "started" ""].foldl applyEvent initialCaptionState) := by
  decide

/-- C3: `handleTranslationStream` discards an event whose text is empty
or whitespace-only, or trims to exactly one character outside the
full-width punctuation set 。！？，、；： — otherwise a final event
replaces the final text, clears the partial text and displays the text,
and a non-final event sets the partial text and displays the text with
the pending indicator.  In particular a single "，" is accepted and a
single "a" is rejected. -/
theorem translation_stream_filtering :
    (∀ (st : CaptionState) (text chunk : String) (isFinal : Bool) (timestamp : Option Json),
      applyEvent st (InboundEvent.translationStream text chunk isFinal timestamp) =
        if jsTrim text = "" then st
        else if (jsTrim text).length = 1 ∧ ∀ c ∈ (jsTrim text).data, c ∉ cjkPunctChars then st
        else if isFinal then ⟨text, "", text⟩
        else ⟨text ++ pendingIndicator, text, st.finalSubtitle⟩) ∧
    (∀ st : CaptionState,
      applyEvent st (InboundEvent.translationStream "，" "" false none) =
        ⟨"， ⏳", "，", st.finalSubtitle⟩) ∧
    (∀ st : CaptionState,
      applyEvent st (InboundEvent.translationStream "a" "" false none) = st) := by
  refine ⟨?_, ?_, ?_⟩
  · intro st text chunk isFinal timestamp
    simp only [applyEvent, handleTranslationStream]
    by_cases h1 : jsTrim text = ""
    · rw [if_pos (Or.inr h1), if_pos h1]
    · have h1' : ¬(text = "" ∨ jsTrim text = "") := by
        rintro (rfl | h)
        · exact h1 (by decide)
        · exact h1 h
      rw [if_neg h1', if_neg h1]
      by_cases h2 : (jsTrim text).length = 1 ∧ ∀ c ∈ (jsTrim text).data, c ∉ cjkPunctChars
      · rw [if_pos ⟨h2.1, (hasCjkPunct_eq_false_iff _).mpr h2.2⟩, if_pos h2]
      · have h2' : ¬((jsTrim text).length = 1 ∧ hasCjkPunct (jsTrim text) = false) :=
          fun hc => h2 ⟨hc.1, (hasCjkPunct_eq_false_iff _).mp hc.2⟩
        rw [if_neg h2', if_neg h2]
  · intro st
    simp only [applyEvent, handleTranslationStream]
    rw [if_neg (by decide), if_neg (by decide), if_neg (by decide)]
    have happ : "，" ++ pendingIndicator = "， ⏳" := by decide
    rw [happ]
  · intro st
    simp only [applyEvent, handleTranslationStream]
    rw [if_neg (by decide), if_pos (by decide)]

/-- C4: a `translation_status` event sets the display string to the
synthesized status line (status, plus the language in parentheses when
present) and clears both caption tiers exactly when the status is
`"stopped"`. -/
theorem translation_status_update (st : CaptionState) (status language : String) :
    applyEvent st (InboundEvent.translationStatus status language) =
      { subtitle :=
          "翻译状态: " ++ status ++ (if language ≠ "" then " (" ++ language ++ ")" else "")
        partialSubtitle := if status = "stopped" then "" else st.partialSubtitle
        finalSubtitle := if status = "stopped" then "" else st.finalSubtitle } := by
  simp only [applyEvent, handleTranslationStatus]
  by_cases h : status = "stopped" <;> simp [h]

/-- C5 counterexample: the claim says an unknown-type event without text
is ignored, but the source's `else` arm does `setSubtitle(message)` — a
payload `{"type":"bogus"}` (no `text` field) overwrites the display
string with the raw JSON text instead of leaving the state unchanged. -/
theorem unknown_event_fallback_counterexample :
    (handleDataReceived initialRecvState "sender"
        (strToBytes "\x7b\"type\":\"bogus\"\x7d") 0).state.subtitle
      = "\x7b\"type\":\"bogus\"\x7d" ∧
    initialRecvState.subtitle = "" := by
  constructor
  · decide
  · rfl

/-- An unrecognized `type` falls through every `else if` to the unknown
arm. -/
lemma classify_unrecognized (j : Json) (raw : String) (h : recognizedType j = false) :
    classify j raw = InboundEvent.unknown (getField j "type") (strField j "text") raw := by
  unfold recognizedType at h
  unfold classify
  cases hty : getField j "type" with
  | none => rfl
  | some v =>
    rw [hty] at h
    cases v with
    | str t =>
      simp only [Bool.or_eq_false_iff, decide_eq_false_iff_not] at h
      simp [h.1.1.1, h.1.1.2, h.1.2, h.2]
    | null => rfl
    | bool b => rfl
    | num lexeme => rfl
    | arr elems => rfl
    | obj fields => rfl

/-- C5 (amended): for a structured payload whose `type` is not one of the
recognized discriminators, the display string becomes the `text` field
when that field is a string that is non-empty after trimming, and the RAW
decoded payload text otherwise (the event is never silently ignored); the
partial and final tiers are untouched. -/
theorem unknown_event_fallback (st : CaptionState) (j : Json) (raw : String)
    (h : recognizedType j = false) :
    applyEvent st (classify j raw) =
      { st with subtitle :=
          match strField j "text" with
          | some t => if t ≠ "" ∧ jsTrim t ≠ "" then t else raw
          | none => raw } := by
  rw [classify_unrecognized j raw h]
  simp only [applyEvent]
  cases strField j "text" with
  | none => rfl
  | some t => by_cases hc : t ≠ "" ∧ jsTrim t ≠ "" <;> simp [hc]

/-- C5 witness: an unrecognized type with a non-empty text field puts
that text on display. -/
theorem unknown_event_fallback_witness :
    recognizedType (Json.obj [("type", Json.str "bogus"), ("text", Json.str "hi")]) = false ∧
    applyEvent initialCaptionState
        (classify (Json.obj [("type", Json.str "bogus"), ("text", Json.str "hi")]) "raw")
      = ⟨"hi", "", ""⟩ := by
  refine ⟨by decide, ?_⟩
  rw [unknown_event_fallback initialCaptionState _ "raw" (by decide)]
  decide

/-- C6 counterexample: on a structured payload the trace insert runs
BEFORE the assembler apply (source lines 502 and 507); a non-JSON
payload never reaches the trace buffer; and even the JSON payload
`null` skips it (building `eventInfo` throws at `jsonData.type` into
the inner catch) — contradicting both the claimed
decode → apply → insert order and "every payload reaches all three
stages". -/
theorem data_pipeline_order_counterexample :
    (handleDataReceived initialRecvState "s"
        (strToBytes "\x7b\"type\":\"translation_status\",\"status\":\"started\"\x7d") 0).stages
      ≠ [Stage.decode, Stage.assemblerApply, Stage.traceInsert] ∧
    Stage.traceInsert ∉
      (handleDataReceived initialRecvState "s" (strToBytes "hello") 0).stages ∧
    (jsonParse (utf8Decode (strToBytes "null"))).isSome = true ∧
    Stage.traceInsert ∉
      (handleDataReceived initialRecvState "s" (strToBytes "null") 0).stages := by
  decide

/-- C6 (amended): every inbound payload is processed synchronously, one
message at a time.  A payload that parses as JSON and whose trace-entry
construction does not throw (it is not JSON `null`, and its `text`
field, if present, is a string or `null`) runs decode → trace insert →
assembler apply — the insert also happens when the dispatched handler
itself then throws into the catch.  Every other payload (non-JSON, JSON
`null`, or a non-string non-null `text` field) runs decode → assembler
apply and never reaches the trace buffer. -/
theorem data_pipeline_stage_order (st : RecvState) (sender : String) (payload : List UInt8)
    (now : Int) :
    (handleDataReceived st sender payload now).stages =
      match jsonParse (utf8Decode payload) with
      | some j =>
        if eventInfoThrows j then [Stage.decode, Stage.assemblerApply]
        else [Stage.decode, Stage.traceInsert, Stage.assemblerApply]
      | none => [Stage.decode, Stage.assemblerApply] := by
  unfold handleDataReceived
  dsimp only
  cases h : jsonParse (utf8Decode payload) with
  | none => simp [h]
  | some j =>
    by_cases hE : eventInfoThrows j = true
    · simp [h, hE]
    · simp only [Bool.not_eq_true] at hE
      cases hD : dispatchE ⟨st.subtitle, st.partialSubtitle, st.finalSubtitle⟩ j
          (utf8Decode payload) <;> simp [h, hE, hD]

/-- C7: decoding is pure and total — `decodeData` is a total Lean
function (every byte sequence, including non-UTF-8 and non-JSON ones,
is mapped to a value instead of an exception), and for each payload
there is exactly one event it decodes to, so decoding the same payload
twice yields structurally equal events. -/
theorem decode_total_and_deterministic (payload : List UInt8) :
    ∃! e : InboundEvent, decodeData payload = e :=
  ⟨decodeData payload, rfl, fun _ h => h.symm⟩

/-- C8: after any insertion sequence the trace buffer is the reversed
(newest-first) insertion order truncated to 20 entries, hence never
holds more than 20; inserting 25 entries leaves exactly the newest 20,
the oldest 5 evicted. -/
theorem trace_buffer_bound :
    (∀ es : List TraceEntry,
        es.foldl (fun acc e => pushDebugEvent e acc) [] = es.reverse.take 20 ∧
        (es.foldl (fun acc e => pushDebugEvent e acc) []).length ≤ 20) ∧
    ((List.range 25).foldl (fun acc e => pushDebugEvent e acc) ([] : List Nat)
        = ((List.range 25).drop 5).reverse ∧
      ((List.range 25).foldl (fun acc e => pushDebugEvent e acc) ([] : List Nat)).length = 20) := by
  refine ⟨fun es => ?_, by decide, by decide⟩
  have h := foldl_pushDebugEvent es [] (by simp)
  simp only [List.append_nil] at h
  refine ⟨h, ?_⟩
  rw [h]
  simp [List.length_take]

/-- C9 counterexample: the Flutter client's directory tests only
`contains('translator')`, so an identity containing `"agent"` (claimed
to be classified as the agent) is ignored there. -/
theorem agent_heuristic_counterexample :
    handleParticipantDart none "voice-agent-1" = none ∧
    jsIncludes "voice-agent-1" "agent" = true := by
  decide

/-- C9 (amended): the web client classifies a joining identity as the
translation agent exactly when it contains the substring `"translator"`
or `"agent"` (case-sensitive), making it the current agent and leaving
the current agent unchanged otherwise — so `"translator-42"` becomes the
agent and `"listener-7"` changes nothing; the Flutter client applies the
same rule but with the single substring `"translator"`. -/
theorem agent_heuristic (agent : Option String) (identity : String) :
    (("translator".data <:+: identity.data ∨ "agent".data <:+: identity.data) →
        handleParticipantConnected agent identity = some identity) ∧
    (¬("translator".data <:+: identity.data ∨ "agent".data <:+: identity.data) →
        handleParticipantConnected agent identity = agent) ∧
    ("translator".data <:+: identity.data →
        handleParticipantDart agent identity = some identity) ∧
    (¬"translator".data <:+: identity.data →
        handleParticipantDart agent identity = agent) ∧
    handleParticipantConnected agent "translator-42" = some "translator-42" ∧
    handleParticipantConnected agent "listener-7" = agent := by
  have hweb : isTranslationAgentIdentity identity = true ↔
      ("translator".data <:+: identity.data ∨ "agent".data <:+: identity.data) := by
    simp [isTranslationAgentIdentity, jsIncludes]
  refine ⟨?_, ?_, ?_, ?_, ?_, ?_⟩
  · intro h
    unfold handleParticipantConnected
    rw [if_pos (hweb.mpr h)]
  · intro h
    unfold handleParticipantConnected
    rw [if_neg (fun hc => h (hweb.mp hc))]
  · intro h
    unfold handleParticipantDart
    rw [if_pos ((jsIncludes_iff_contig _ _).mpr h)]
  · intro h
    unfold handleParticipantDart
    rw [if_neg (fun hc => h ((jsIncludes_iff_contig _ _).mp hc))]
  · unfold handleParticipantConnected
    rw [if_pos (by decide)]
  · unfold handleParticipantConnected
    rw [if_neg (by decide)]

/-- C9 witness: the two joins named by the claim, decided concretely. -/
theorem agent_heuristic_witness :
    handleParticipantConnected none "translator-42" = some "translator-42" ∧
    handleParticipantDart none "listener-7" = none :=
  ⟨(agent_heuristic none "translator-42").1 (Or.inl (by decide)),
   (agent_heuristic none "listener-7").2.2.2.1 (by decide)⟩

/-- C10: the caption state produced by `handleDataReceived` depends only
on the payload and the prior state — the sender identity appears in the
log output alone, so two runs with identical payloads and different
senders produce identical display, partial and final texts. -/
theorem caption_state_sender_independent (st : RecvState) (sender1 sender2 : String)
    (payload : List UInt8) (now : Int) :
    (handleDataReceived st sender1 payload now).state.subtitle
        = (handleDataReceived st sender2 payload now).state.subtitle ∧
    (handleDataReceived st sender1 payload now).state.partialSubtitle
        = (handleDataReceived st sender2 payload now).state.partialSubtitle ∧
    (handleDataReceived st sender1 payload now).state.finalSubtitle
        = (handleDataReceived st sender2 payload now).state.finalSubtitle := by
  unfold handleDataReceived
  dsimp only
  cases h : jsonParse (utf8Decode payload) with
  | none => exact ⟨rfl, rfl, rfl⟩
  | some j =>
    by_cases hE : eventInfoThrows j = true
    · simp [hE]
    · cases hD : dispatchE ⟨st.subtitle, st.partialSubtitle, st.finalSubtitle⟩ j
          (utf8Decode payload) <;> simp [hE, hD]

/-- C1 counterexample: in the broadcast variant, with the room connected,
the microphone live and NO agent discovered, `toggleTranslation` still
broadcasts the start command and raises no precondition alert —
contradicting "fails with a precondition error and sends no data". -/
theorem toggle_without_agent_counterexample :
    (toggleTranslation ⟨true, true, true, false, none, "Pryme-Korean", ""⟩ 0 true).published
        = [⟨"translation_control", "start", 0, "Pryme-Korean"⟩] ∧
    (toggleTranslation ⟨true, true, true, false, none, "Pryme-Korean", ""⟩ 0 true).alert
        = none ∧
    (⟨true, true, true, false, none, "Pryme-Korean", ""⟩ : ToggleState).agentParticipant
        = none := by
  decide

/-- C1 (amended): only the RPC variant requires a discovered agent — with
none it performs no call and leaves the state unchanged.  The broadcast
variant fails (alert, no publish, state unchanged) when the room is not
connected or absent, and also when the microphone is missing or muted;
once those checks pass it broadcasts the control command whether or not
an agent has been discovered. -/
theorem toggle_preconditions :
    (∀ (st : RpcToggleState) (rpcOk : Bool), st.agentParticipant = none →
        toggleTranslationRpc st rpcOk = ⟨st, [], true⟩) ∧
    (∀ (st : ToggleState) (now : Int) (publishOk : Bool),
        st.isConnected = false ∨ st.hasRoom = false →
        (toggleTranslation st now publishOk).published = [] ∧
        (toggleTranslation st now publishOk).state = st ∧
        (toggleTranslation st now publishOk).alert.isSome = true) ∧
    (∀ (st : ToggleState) (now : Int) (publishOk : Bool),
        st.isConnected = true → st.hasRoom = true → st.micEnabled = false →
        (toggleTranslation st now publishOk).published = [] ∧
        (toggleTranslation st now publishOk).alert.isSome = true) ∧
    (∀ (st : ToggleState) (now : Int),
        st.isConnected = true → st.hasRoom = true → st.micEnabled = true →
        st.isTranslating = false →
        (toggleTranslation st now true).published
          = [⟨"translation_control", "start", now, st.roomName⟩]) := by
  refine ⟨?_, ?_, ?_, ?_⟩
  · intro st rpcOk h
    unfold toggleTranslationRpc
    rw [if_pos (Or.inr (Or.inr h))]
  · intro st now publishOk h
    have hc : ¬ st.isConnected = true ∨ ¬ st.hasRoom = true := by
      rcases h with h | h
      · exact Or.inl (by simp [h])
      · exact Or.inr (by simp [h])
    unfold toggleTranslation
    rw [if_pos (by tauto)]
    exact ⟨rfl, rfl, rfl⟩
  · intro st now publishOk h1 h2 h3
    unfold toggleTranslation
    rw [if_neg (by simp [h1, h2]), if_pos (by simp [h3])]
    exact ⟨rfl, rfl⟩
  · intro st now h1 h2 h3 h4
    unfold toggleTranslation
    rw [if_neg (by simp [h1, h2]), if_neg (by simp [h3]), if_pos (by simp [h4]),
      if_pos (by trivial)]

/-- C1 witness: concrete states exercising the precondition branches and
the agent-free broadcast. -/
theorem toggle_preconditions_witness :
    toggleTranslationRpc ⟨true, true, false, none⟩ true = ⟨⟨true, true, false, none⟩, [], true⟩ ∧
    (toggleTranslation ⟨false, false, false, false, none, "r", ""⟩ 0 true).published = [] ∧
    (toggleTranslation ⟨true, true, true, false, none, "Pryme-Korean", ""⟩ 3 true).published
        = [⟨"translation_control", "start", 3, "Pryme-Korean"⟩] :=
  ⟨toggle_preconditions.1 _ true rfl,
   (toggle_preconditions.2.1 _ 0 true (Or.inl rfl)).1,
   toggle_preconditions.2.2.2 _ 3 rfl rfl rfl rfl⟩
